import Mathlib

/-!
A verification development for the project-analysis engine of the IDE
repository: the Python-side symbol table, the two-pass file analysis
(declaration visitor and dependency visitor), the project scanner's
package reconciliation, and the enhanced analysis orchestrator.

Each definition is a shallow embedding of one Python function or class,
translated from the repository's source.  Python dictionaries are
modelled as insertion-ordered association lists whose keys are unique in
every state the code constructs; `str.split('.')` and `'.'.join` are
modelled character by character.
-/

namespace IDE

/-! ## Python dictionaries

An insertion-ordered association list with Python `dict` semantics:
assignment updates an existing key in place or appends a new binding at
the end, lookup finds the (unique) binding, `del` removes the binding. -/

namespace PyDict

/-- `d[k] = v`: update the binding in place if `k` is present, else append. -/
def upd {β : Type} : List (String × β) → String → β → List (String × β)
  | [], k, v => [(k, v)]
  | (k', v') :: rest, k, v =>
      if k' = k then (k, v) :: rest else (k', v') :: upd rest k v

/-- `d.get(k)`: first binding for `k`, if any. -/
def get? {β : Type} : List (String × β) → String → Option β
  | [], _ => none
  | (k', v) :: rest, k => if k' = k then some v else get? rest k

/-- `k in d`. -/
def hasKey {β : Type} (d : List (String × β)) (k : String) : Bool :=
  (get? d k).isSome

/-- `del d[k]` (keys are unique in every reachable state, so removing
every binding for `k` coincides with Python's single-entry delete). -/
def del {β : Type} (d : List (String × β)) (k : String) : List (String × β) :=
  d.filter (fun p => p.1 ≠ k)


end PyDict

/-! ## Dotted-path splitting and joining

`str.split('.')` and `'.'.join(...)`, modelled at the character level. -/

/-- Auxiliary worker for `splitDot`: `acc` holds the characters of the
current chunk in reverse. -/
def splitDotChars : List Char → List Char → List String
  | [], acc => [String.mk acc.reverse]
  | c :: cs, acc =>
      if c = '.' then String.mk acc.reverse :: splitDotChars cs []
      else splitDotChars cs (c :: acc)

/-- `s.split('.')`. -/
def splitDot (s : String) : List String :=
  splitDotChars s.data []

/-- Worker for `joinDot`: prepend `"."` before every further part. -/
def joinDotAux : List String → String
  | [] => ""
  | t :: r => "." ++ t ++ joinDotAux r

/-- `'.'.join(parts)`. -/
def joinDot : List String → String
  | [] => ""
  | s :: rest => s ++ joinDotAux rest


/-! ## Symbol Table

Embedding of `app/core/parser/python/symbol_table.py` (`SymbolTable`).
`_qname_to_id` and `_file_id_to_imports` are Python dicts, modelled by
`PyDict`. -/

structure SymbolTable where
  qnameToId : List (String × String)
  fileImports : List (String × List (String × String))
  scopeStack : List String
  deriving Repr, DecidableEq

namespace SymbolTable

def empty : SymbolTable := ⟨[], [], []⟩

/-- `SymbolTable.add_symbol`: caches a symbol's qname and database id. -/
def add_symbol (st : SymbolTable) (qname dbId : String) : SymbolTable :=
  { st with qnameToId := PyDict.upd st.qnameToId qname dbId }

/-- `SymbolTable.add_import`: registers an alias → qname binding for one
file, creating the file's alias map on first use. -/
def add_import (st : SymbolTable) (fileId aliasName qname : String) : SymbolTable :=
  let cur := (PyDict.get? st.fileImports fileId).getD []
  { st with fileImports := PyDict.upd st.fileImports fileId (PyDict.upd cur aliasName qname) }

/-- `SymbolTable.resolve_import_qname`: exact alias lookup in one
file's alias map; `none` when the file or the alias is unknown. -/
def resolve_import_qname (st : SymbolTable) (fileId name : String) : Option String :=
  match PyDict.get? st.fileImports fileId with
  | none => none
  | some fileMap => PyDict.get? fileMap name

/-- `SymbolTable.is_local_module`: three-tier decision — exact
membership, then every dotted prefix of the qname, then any known qname
extending `qname + "."`. -/
def is_local_module (st : SymbolTable) (qname : String) : Bool :=
  if PyDict.hasKey st.qnameToId qname then true
  else
    let parts := splitDot qname
    if (List.range parts.length).any
        (fun i => PyDict.hasKey st.qnameToId (joinDot (parts.take (i + 1)))) then true
    else st.qnameToId.any (fun kv => kv.1.startsWith (qname ++ "."))

/-- `qname.replace('.', '_')` as used for placeholder package ids. -/
def sanitizeQname (q : String) : String :=
  String.map (fun c => if c = '.' then '_' else c) q

/-- `SymbolTable.get_or_create_package_id`: the existing id if present,
else a deterministic placeholder that is registered before returning. -/
def get_or_create_package_id (st : SymbolTable) (packageQname : String) :
    String × SymbolTable :=
  match PyDict.get? st.qnameToId packageQname with
  | some id => (id, st)
  | none =>
      let placeholderId := "package_" ++ sanitizeQname packageQname
      (placeholderId,
        { st with qnameToId := PyDict.upd st.qnameToId packageQname placeholderId })

/-- `SymbolTable.get_symbol_id`. -/
def get_symbol_id (st : SymbolTable) (qname : String) : Option String :=
  PyDict.get? st.qnameToId qname

/-- `SymbolTable.get_file_imports`. -/
def get_file_imports (st : SymbolTable) (fileId : String) : List (String × String) :=
  (PyDict.get? st.fileImports fileId).getD []

/-- `SymbolTable.clear_file_imports`: drops one file's alias map. -/
def clear_file_imports (st : SymbolTable) (fileId : String) : SymbolTable :=
  { st with fileImports := PyDict.del st.fileImports fileId }

/-- `SymbolTable.push_scope`. -/
def push_scope (st : SymbolTable) (scopeId : String) : SymbolTable :=
  { st with scopeStack := st.scopeStack ++ [scopeId] }

/-- `SymbolTable.pop_scope`: pops the last scope; `none` on an empty
stack, never an error. -/
def pop_scope (st : SymbolTable) : Option String × SymbolTable :=
  match st.scopeStack.getLast? with
  | some s => (some s, { st with scopeStack := st.scopeStack.dropLast })
  | none => (none, st)

end SymbolTable

/-! ## Python AST model

The fragment of the `ast` node language read by the two visitors:
function/class definitions, the two import statement forms, names,
attribute accesses, calls and assignments.  Positions carry the four
`lineno`/`col_offset`/`end_lineno`/`end_col_offset` fields. -/

structure NodePosition where
  lineNo : Nat
  colOffset : Nat
  endLineNo : Nat
  endColOffset : Nat
  deriving Repr, DecidableEq

/-- `ast.alias`: an imported name with its optional `as` rebinding. -/
structure PyAlias where
  name : String
  asname : Option String
  deriving Repr, DecidableEq

/-- The name an `ast.alias` binds: `asname if asname else name`. -/
def PyAlias.boundName (a : PyAlias) : String :=
  a.asname.getD a.name

inductive PyExpr where
  | name (id : String) (isLoad : Bool) (pos : NodePosition)
  | attr (value : PyExpr) (attrName : String) (isLoad : Bool) (pos : NodePosition)
  | call (func : PyExpr) (args : List PyExpr)
  | strConst
  deriving Repr

inductive PyStmt where
  | functionDef (name : String) (body : List PyStmt) (pos : NodePosition)
  | classDef (name : String) (body : List PyStmt) (pos : NodePosition)
  | importStmt (names : List PyAlias) (pos : NodePosition)
  | importFrom (module : Option String) (names : List PyAlias) (level : Nat) (pos : NodePosition)
  | exprStmt (e : PyExpr)
  | assign (targets : List PyExpr) (value : PyExpr)
  | passStmt
  deriving Repr

/-- Python truthiness of an optional string: `None` and `""` are falsy. -/
def optTruthy : Option String → Bool
  | some s => !(s == "")
  | none => false

/-! ## Dependency-visitor helpers

Embedding of `dependency_visitor/helpers.py`. -/

/-- Worker for `reconstruct_attribute_chain`: walks `node.value` while it
is an attribute access, prepending each `attr`. -/
def reconstructChainAux : PyExpr → List String → List String
  | .attr v a _ _, chain => reconstructChainAux v (a :: chain)
  | .name id _ _, chain => id :: chain
  | _, _ => []

/-- `reconstruct_attribute_chain`: the full dotted chain of an
`ast.Attribute` node, or `[]` when the chain is rooted in anything other
than a simple name. -/
def reconstruct_attribute_chain : PyExpr → List String
  | .attr v a _ _ => reconstructChainAux v [a]
  | _ => []

/-- `find_import_position`: position of the first processed import
statement that bound the given alias. -/
def find_import_position : List PyStmt → String → Option NodePosition
  | [], _ => none
  | s :: rest, aliasName =>
      match s with
      | .importStmt names pos =>
          if names.any (fun al => al.boundName = aliasName) then some pos
          else find_import_position rest aliasName
      | .importFrom _ names _ pos =>
          if names.any (fun al => al.boundName = aliasName) then some pos
          else find_import_position rest aliasName
      | _ => find_import_position rest aliasName

/-- The `UsesImportEdge` pydantic model of `app/models/edges.py` (lines
19-28): the `BaseEdge` fields `_from`/`_to` (the latter created as the
empty-string placeholder) and `edge_type`, plus `target_symbol`,
`alias` (optional), `import_position` and `usage_positions`.  The model
declares NO `target_qname` field. -/
structure UsesImportEdge where
  fromId : String
  toId : String
  edgeType : String
  targetSymbol : String
  aliasName : Option String
  importPosition : NodePosition
  usagePositions : List NodePosition
  deriving Repr, DecidableEq

/-- The combined mutable state of one detail pass: the `VisitorContext`
(file id, shared symbol table, result list) together with the
`DependencyContextManager` fields (`current_consumer_id`, `class_stack`)
and the `ImportProcessor`'s `processed_imports`. -/
structure DepState where
  symtab : SymbolTable
  fileId : String
  currentConsumerId : Option String
  classStack : List String
  processedImports : List PyStmt
  results : List UsesImportEdge
  deriving Repr

/-- `get_file_qname_from_context`: first qname in the symbol table whose
id is the context's file id; `"unknown_file"` as fallback. -/
def get_file_qname_from_context (st : DepState) : String :=
  match st.symtab.qnameToId.find? (fun kv => kv.2 = st.fileId) with
  | some kv => kv.1
  | none => "unknown_file"

/-- `get_relative_import_base`: walk the importing file's dotted path up
by `level` components; `""` when the level exceeds the path. -/
def get_relative_import_base (st : DepState) (level : Nat) : String :=
  let fileQname := get_file_qname_from_context st
  let parts := splitDot fileQname
  if level ≥ parts.length then ""
  else if level > 0 then joinDot (parts.take (parts.length - level))
  else fileQname

/-- `create_usage_edge`: appends a `UsesImportEdge` whose import position
is recovered from the processed imports, falling back to the usage
position.  The call passes a `target_qname=` keyword, but the pydantic
model declares no such field and silently discards unknown keywords, so
the stored record carries no target qname (`targetQname` is accepted
here and dropped, exactly as in the source). -/
def create_usage_edge (st : DepState) (currentConsumerId : String)
    (_targetQname targetSymbol aliasName : String)
    (usagePosition : NodePosition) : DepState :=
  let importPosition := (find_import_position st.processedImports aliasName).getD usagePosition
  { st with results := st.results ++
      [{ fromId := currentConsumerId, toId := "", edgeType := "uses_import",
         targetSymbol := targetSymbol, aliasName := some aliasName,
         importPosition := importPosition, usagePositions := [usagePosition] }] }

/-! ## Import Processor

Embedding of `dependency_visitor/import_processor.py`. -/

/-- `ImportProcessor.process_import`: record the statement and register
one alias → qname binding per imported name. -/
def process_import (st : DepState) (names : List PyAlias) (pos : NodePosition) : DepState :=
  let st := { st with processedImports := st.processedImports ++ [PyStmt.importStmt names pos] }
  names.foldl
    (fun s al =>
      { s with symtab := s.symtab.add_import s.fileId al.boundName al.name })
    st

/-- `ImportProcessor.process_import_from`: compute the base module (the
stated module, or the relative-import base), then register each
non-wildcard name as alias → `base.symbol`. -/
def process_import_from (st : DepState) (module : Option String)
    (names : List PyAlias) (level : Nat) (pos : NodePosition) : DepState :=
  let st := { st with processedImports := st.processedImports ++ [PyStmt.importFrom module names level pos] }
  let baseModule :=
    match module with
    | none => get_relative_import_base st level
    | some m => m
  names.foldl
    (fun s al =>
      if al.name = "*" then s
      else
        let fullQname := if baseModule = "" then al.name else baseModule ++ "." ++ al.name
        { s with symtab := s.symtab.add_import s.fileId al.boundName fullQname })
    st

/-- `UsageDetector.detect_name_usage`: a loaded bare name with an active
consumer whose alias resolves in the file's import map produces an edge;
otherwise nothing. -/
def detect_name_usage (st : DepState) (id : String) (isLoad : Bool)
    (pos : NodePosition) : DepState :=
  match st.currentConsumerId with
  | none => st
  | some cid =>
      if cid == "" || !isLoad then st
      else
        let resolved := st.symtab.resolve_import_qname st.fileId id
        if optTruthy resolved then
          create_usage_edge st cid (resolved.getD "") id id pos
        else st

/-- The qname `DependencyContextManager.visit_function_def` constructs
for a function definition: file qname, then the class path when the
class stack is non-empty, then the function name. -/
def function_qname (st : DepState) (nm : String) : String :=
  let fileQname := get_file_qname_from_context st
  if st.classStack.isEmpty then fileQname ++ "." ++ nm
  else fileQname ++ "." ++ joinDot st.classStack ++ "." ++ nm

/-- The qname `DependencyContextManager.visit_class_def` constructs once
the class name has been pushed onto the class stack. -/
def class_qname (st : DepState) : String :=
  get_file_qname_from_context st ++ "." ++ joinDot st.classStack

/-- `self.class_stack.append(node.name)`. -/
def pushClass (st : DepState) (nm : String) : DepState :=
  { st with classStack := st.classStack ++ [nm] }

/-! ## Dependency Visitor

Embedding of `dependency_visitor/__init__.py` (`DependencyVisitor`)
together with `context_manager.py` (`DependencyContextManager.
visit_function_def` / `visit_class_def`, inlined at the `functionDef` and
`classDef` arms) and `usage_detector.py`'s `detect_attribute_usage`
(inlined at the `attr` arm, whose `visit_callback` is `generic_visit`). -/

mutual

def visitStmt (st : DepState) (s : PyStmt) : DepState :=
  match s with
  | .functionDef nm body _ =>
      let functionId := PyDict.get? st.symtab.qnameToId (function_qname st nm)
      if optTruthy functionId then
        let previousConsumer := st.currentConsumerId
        let st1 := { st with currentConsumerId := functionId }
        let st2 := visitStmtList st1 body
        { st2 with currentConsumerId := previousConsumer }
      else st
  | .classDef nm body _ =>
      let stP := pushClass st nm
      let classId := PyDict.get? stP.symtab.qnameToId (class_qname stP)
      let stAfter :=
        if optTruthy classId then
          let previousConsumer := stP.currentConsumerId
          let st1 := { stP with currentConsumerId := classId }
          let st2 := visitStmtList st1 body
          { st2 with currentConsumerId := previousConsumer }
        else visitStmtList stP body
      { stAfter with classStack := stAfter.classStack.dropLast }
  | .importStmt names pos => process_import st names pos
  | .importFrom m names l pos => process_import_from st m names l pos
  | .exprStmt e => visitExpr st e
  | .assign targets value => visitExpr (visitExprList st targets) value
  | .passStmt => st

def visitStmtList (st : DepState) (l : List PyStmt) : DepState :=
  match l with
  | [] => st
  | s :: rest => visitStmtList (visitStmt st s) rest

def visitExpr (st : DepState) (e : PyExpr) : DepState :=
  match e with
  | .name id isLoad pos => detect_name_usage st id isLoad pos
  | .attr v a isLoad pos =>
      match st.currentConsumerId with
      | none => st
      | some cid =>
          if cid == "" || !isLoad then st
          else
            match reconstruct_attribute_chain (.attr v a isLoad pos) with
            | [] => st
            | base :: restChain =>
                let resolved := st.symtab.resolve_import_qname st.fileId base
                let st1 :=
                  if optTruthy resolved then
                    let fullTarget :=
                      if restChain.isEmpty then resolved.getD ""
                      else (resolved.getD "") ++ "." ++ joinDot restChain
                    create_usage_edge st cid fullTarget a base pos
                  else st
                visitExpr st1 v
  | .call f args => visitExprList (visitExpr st f) args
  | .strConst => st

def visitExprList (st : DepState) (l : List PyExpr) : DepState :=
  match l with
  | [] => st
  | e :: rest => visitExprList (visitExpr st e) rest

end

/-- One whole detail-pass traversal of a module body (the
`DependencyVisitor.visit(tree)` call on `ast.Module`). -/
def visitModule (st : DepState) (body : List PyStmt) : DepState :=
  visitStmtList st body

/-! ## AST Cache

Embedding of `app/core/parser/python/ast_cache.py` (`ASTCache`).  In the
source, the bodies of both `get` and `set` are bare `pass` placeholders
under a `TODO` comment, so `get` returns `None` unconditionally and
`set` stores nothing. -/

structure ASTCache where
  fileAsts : List (String × List PyStmt)
  deriving Repr

namespace ASTCache

def empty : ASTCache := ⟨[]⟩

/-- `ASTCache.get`: the body is `pass`, so every lookup yields `None`. -/
def get (_c : ASTCache) (_filePath : String) : Option (List PyStmt) :=
  none

/-- `ASTCache.set`: the body is `pass`, so the cache is left unchanged. -/
def set (c : ASTCache) (_filePath : String) (_astTree : List PyStmt) : ASTCache :=
  c

end ASTCache

/-- The outcome of `ast.parse` on a file's content (or of `open` +
`ast.parse` in the detail pass): a module body, or an `OSError` /
`SyntaxError` message. -/
inductive ParseOutcome where
  | parsed (tree : List PyStmt)
  | failed (msg : String)
  deriving Repr

/-- `PythonFileParser.run_detail_pass`, tree-acquisition part (lines
120-131): take the cached tree, else re-read and re-parse the file and
cache the result; on an `OSError`/`SyntaxError` the pass returns no
tree (and hence an empty edge list). -/
def run_detail_pass_fetch (cache : ASTCache) (filePath : String)
    (reparse : ParseOutcome) : Option (List PyStmt) × ASTCache :=
  match ASTCache.get cache filePath with
  | some tree => (some tree, cache)
  | none =>
      match reparse with
      | .parsed tree => (some tree, ASTCache.set cache filePath tree)
      | .failed _ => (none, cache)

/-! ## Declaration Visitor and declaration pass

Embedding of `visitors/declaration_visitor.py` (`DeclarationVisitor`)
and `file_parser.py` (`PythonFileParser.run_declaration_pass`).  In the
source, each of the visitor's `visit_FunctionDef`, `visit_ClassDef`,
`visit_Import` and `visit_ImportFrom` bodies is a bare `pass` under a
`TODO` comment, so `declared_functions` and `declared_classes` stay
empty and definitions are never descended into. -/

structure DeclVisitorState where
  declaredFunctions : List PyStmt
  declaredClasses : List PyStmt
  deriving Repr

/-- One `DeclarationVisitor` dispatch step: every handler is a `pass`
stub, and the handlers do not call `generic_visit`, so nothing is
recorded at any depth. -/
def declVisitStmt (st : DeclVisitorState) (s : PyStmt) : DeclVisitorState :=
  match s with
  | .functionDef _ _ _ => st
  | .classDef _ _ _ => st
  | .importStmt _ _ => st
  | .importFrom _ _ _ _ => st
  | _ => st

/-- `DeclarationVisitor.visit` over a module body. -/
def declVisit (body : List PyStmt) : DeclVisitorState :=
  body.foldl declVisitStmt ⟨[], []⟩

/-- A typed declaration descriptor as returned by the declaration pass
(`ClassNode` / `FunctionNode` with name, qname and position). -/
inductive DeclNode where
  | classNode (name qname : String) (position : NodePosition)
  | functionNode (name qname : String) (position : NodePosition)
  deriving Repr, DecidableEq

/-- Python `s.lstrip('/')`. -/
def stripLeadingSlashes (s : String) : String :=
  String.mk (s.data.dropWhile (fun c => c = '/'))

/-- `PythonFileParser._get_qname`: dotted module path from the file path
relative to the project root, extension stripped, plus the joined scope
parts. -/
def fileParserGetQname (projectRoot filePath : String) (parts : List String) : String :=
  let relativePath := stripLeadingSlashes (filePath.replace projectRoot "")
  let modulePath := (relativePath.replace ".py" "").replace "/" "."
  modulePath ++ "." ++ joinDot parts

/-- `PythonFileParser.run_declaration_pass` (lines 34-104): parse (a
syntax error is logged and yields `[]`), cache the tree, run the
`DeclarationVisitor`, then build class descriptors, reclassify each
declared function whose line span is contained in a declared class's
span as a method of that class (tracking processed functions by
identity, modelled by list position), and finally emit the remaining
functions as module-level descriptors. -/
def run_declaration_pass (cache : ASTCache) (projectRoot filePath : String)
    (parse : ParseOutcome) : List DeclNode × ASTCache :=
  match parse with
  | .failed _ => ([], cache)
  | .parsed tree =>
      let cache := ASTCache.set cache filePath tree
      let v := declVisit tree
      let funcsWithIdx := v.declaredFunctions.enum
      let step := fun (acc : List DeclNode × List Nat) (c : PyStmt) =>
        match c with
        | .classDef cname _ cpos =>
            let classQname := fileParserGetQname projectRoot filePath [cname]
            let acc1 := (acc.1 ++ [DeclNode.classNode cname classQname cpos], acc.2)
            funcsWithIdx.foldl
              (fun (acc2 : List DeclNode × List Nat) iv =>
                match iv.2 with
                | .functionDef fname _ fpos =>
                    if cpos.lineNo ≤ fpos.lineNo ∧ fpos.endLineNo ≤ cpos.endLineNo then
                      (acc2.1 ++ [DeclNode.functionNode fname
                          (fileParserGetQname projectRoot filePath [cname, fname]) fpos],
                        acc2.2 ++ [iv.1])
                    else acc2
                | _ => acc2)
              acc1
        | _ => acc
      let (nodes1, processed) := v.declaredClasses.foldl step ([], [])
      let nodes2 := funcsWithIdx.foldl
        (fun (acc : List DeclNode) iv =>
          if iv.1 ∈ processed then acc
          else
            match iv.2 with
            | .functionDef fname _ fpos =>
                acc ++ [DeclNode.functionNode fname
                    (fileParserGetQname projectRoot filePath [fname]) fpos]
            | _ => acc)
        nodes1
      (nodes2, cache)

/-! ## Project Scanner: package reconciliation

Embedding of `app/core/parser/project_scanner.py`
(`ProjectScanner._create_package_node` and
`_process_dependency_edges`).  The persistence collaborator is modelled
from the spec: `create(node) -> node-with-id` (§6) assigns the next
fresh database id; `BelongsTo` edges to the project root are not
tracked here. -/

structure ScanState where
  symtab : SymbolTable
  createdPackages : List String
  pkgNodes : List (String × String)
  usesImportEdges : List UsesImportEdge
  nextDbId : Nat
  deriving Repr, DecidableEq

/-- Modelled from the spec: the graph store's `create` returning a node
with a fresh database id (§6 persistence collaborator, which is outside
the analysis engine). -/
def freshNodeId (st : ScanState) : String :=
  "nodes/" ++ toString st.nextDbId

/-- `ProjectScanner._create_package_node`: an already-created package is
answered from the symbol table; otherwise a `PackageNode` is persisted,
its id registered under the qname, and the qname added to the
`created_packages` dedup set. -/
def create_package_node (st : ScanState) (packageQname : String) :
    Option String × ScanState :=
  if packageQname ∈ st.createdPackages then
    (st.symtab.get_symbol_id packageQname, st)
  else
    let createdId := freshNodeId st
    let st :=
      { st with
        pkgNodes := st.pkgNodes ++ [(createdId, packageQname)],
        symtab := st.symtab.add_symbol packageQname createdId,
        createdPackages := st.createdPackages ++ [packageQname],
        nextDbId := st.nextDbId + 1 }
    (some createdId, st)

/-- One iteration of `ProjectScanner._process_dependency_edges` (lines
148-171).  After the `isinstance` check, the body's first statement is
`target_qname = edge.target_qname` — but the `UsesImportEdge` model
declares no `target_qname` field (the dependency pass's `target_qname=`
keyword was silently discarded at construction), so this attribute read
raises `AttributeError` for every edge the pass produces.  The
empty-target skip and the local/external reconciliation below that read
(`is_local_module`, `get_symbol_id`, `_create_package_node`, the
`edge.to_id` assignment and the persist) are unreachable. -/
def process_dependency_edge (_st : ScanState) (_edge : UsesImportEdge) :
    Except String ScanState :=
  .error "AttributeError: UsesImportEdge object has no attribute target_qname"

/-- `ProjectScanner._process_dependency_edges` over an edge list: the
loop body raises out of the function on its first iteration. -/
def process_dependency_edges (st : ScanState) :
    List UsesImportEdge → Except String ScanState
  | [] => .ok st
  | edge :: rest =>
      match process_dependency_edge st edge with
      | .error msg => .error msg
      | .ok st1 => process_dependency_edges st1 rest

/-! ## Analysis Orchestrator

Embedding of `enhanced_parser_design/implementations/project_analyzer.py`
(`ProjectAnalyzer.analyze_project`, `AnalysisOrchestrator.run`,
`_run_declaration_phase`, `_process_file_declarations`) and
`enhanced_parser_design/models/enhanced_models.py` (`AnalysisStatus`,
`AnalysisIssue`, `AnalysisReport`, `AnalysisMetrics`). -/

inductive AnalysisStatus where
  | pending
  | inProgress
  | completed
  | completedWithIssues
  | failed
  deriving Repr, DecidableEq

structure AnalysisIssue where
  severity : String
  category : String
  message : String
  filePath : Option String
  deriving Repr, DecidableEq

structure AnalysisMetrics where
  filesProcessed : Nat
  filesFailed : Nat
  nodesCreated : Nat
  edgesCreated : Nat
  deriving Repr, DecidableEq

structure AnalysisReport where
  status : AnalysisStatus
  issues : List AnalysisIssue
  deriving Repr, DecidableEq

/-- `AnalysisReport.add_error`: appends an error-severity issue.  Note
that it leaves `status` untouched. -/
def AnalysisReport.add_error (r : AnalysisReport) (message : String)
    (filePath : Option String) : AnalysisReport :=
  { r with issues := r.issues ++
      [(⟨"error", "ParsingError", message, filePath⟩ : AnalysisIssue)] }

/-- The effect of the `self.report.add_info(...)` calls that open every
phase: `AnalysisReport` defines `add_issue`, `add_error` and
`add_warning` but no `add_info`, so in Python the attribute lookup
raises `AttributeError`. -/
def report_add_info (r : AnalysisReport) (_message : String) :
    AnalysisReport × Option String :=
  (r, some "AttributeError: add_info")

inductive PhaseTag where
  | declaration
  | analysis
  | linking
  | postProcessing
  deriving Repr, DecidableEq

/-- The orchestrator's phase order. -/
def phaseOrder : List PhaseTag :=
  [.declaration, .analysis, .linking, .postProcessing]

/-- A phase body: it may mutate the shared report and metrics, and may
end with an escaping exception (`some` message). -/
def PhaseFun : Type :=
  AnalysisReport → AnalysisMetrics → AnalysisReport × AnalysisMetrics × Option String

/-- The phase sequencing inside `AnalysisOrchestrator.run`'s `try` block
(lines 173-183): each phase runs only if its predecessors returned
normally; alongside the outcome, the list of phases actually entered is
returned for observation. -/
def runPhases (declP analP linkP postP : PhaseFun)
    (r : AnalysisReport) (m : AnalysisMetrics) :
    (AnalysisReport × AnalysisMetrics × Option String) × List PhaseTag :=
  match declP r m with
  | (r1, m1, some e) => ((r1, m1, some e), [.declaration])
  | (r1, m1, none) =>
      match analP r1 m1 with
      | (r2, m2, some e) => ((r2, m2, some e), [.declaration, .analysis])
      | (r2, m2, none) =>
          match linkP r2 m2 with
          | (r3, m3, some e) => ((r3, m3, some e), [.declaration, .analysis, .linking])
          | (r3, m3, none) =>
              match postP r3 m3 with
              | (r4, m4, oe) => ((r4, m4, oe), phaseOrder)

/-- The observable outcome of `ProjectAnalyzer.analyze_project`: the
final report and metrics, the `AnalysisResult.success` flag, and the
phases that were entered. -/
structure AnalysisOutcome where
  report : AnalysisReport
  metrics : AnalysisMetrics
  success : Bool
  invoked : List PhaseTag
  deriving Repr, DecidableEq

/-- `AnalysisOrchestrator.run` (lines 155-200): record the file count,
run the phases; an exception escaping a phase is caught by the `except`
clause, which appends an `Orchestration failed` error issue and adds the
whole file count to `files_failed` — it does not set the status to
`failed`.  `success` compares the status (still untouched by `run`)
against `failed`. -/
def orchestratorRun (declP analP linkP postP : PhaseFun) (fileCount : Nat)
    (report : AnalysisReport) (metrics : AnalysisMetrics) : AnalysisOutcome :=
  let metrics := { metrics with filesProcessed := fileCount }
  let out := runPhases declP analP linkP postP report metrics
  match out.1 with
  | (r, m, some e) =>
      let r := r.add_error ("Orchestration failed: " ++ e) none
      let m := { m with filesFailed := m.filesFailed + fileCount }
      { report := r, metrics := m, success := !(r.status == .failed), invoked := out.2 }
  | (r, m, none) =>
      { report := r, metrics := m, success := !(r.status == .failed), invoked := out.2 }

/-- The report `ProjectAnalyzer.analyze_project` starts from:
`AnalysisReport(project_id=..., status=AnalysisStatus.IN_PROGRESS)`. -/
def initialReport : AnalysisReport :=
  { status := .inProgress, issues := [] }

/-- Fresh `AnalysisMetrics()`. -/
def initialMetrics : AnalysisMetrics :=
  { filesProcessed := 0, filesFailed := 0, nodesCreated := 0, edgesCreated := 0 }

/-- The `AnalysisOrchestrator(...)` construction inside
`ProjectAnalyzer.analyze_project`'s `try` (project_analyzer.py lines
56-62): `AnalysisOrchestrator.__init__` (lines 137-150) performs
`from .symbol_registry import SymbolRegistry`, `from .ast_cache` and
`from .visitor_pipeline` relative imports, and none of these modules
exist in the repository, so the construction always raises
`ModuleNotFoundError` before `run` can be called. -/
def orchestrator_construct : Except String Unit :=
  .error "ModuleNotFoundError: No module named symbol_registry"

/-- `ProjectAnalyzer.analyze_project` (lines 31-92): build the
in-progress report, then, inside the `try`, construct the orchestrator
and run it.  The construction always raises (see
`orchestrator_construct`), so the `except` branch records an
`Analysis failed` error, sets the status to `failed` and returns with
`success=False` and no phase entered.  In the (unreachable) success
path, `run`'s own `try/except` never lets a phase exception escape and
the status is finalized from the issue list. -/
def analyze_project (declP analP linkP postP : PhaseFun) (fileCount : Nat) :
    AnalysisOutcome :=
  match orchestrator_construct with
  | .error e =>
      let report := initialReport.add_error ("Analysis failed: " ++ e) none
      { report := { report with status := AnalysisStatus.failed },
        metrics := initialMetrics, success := false, invoked := [] }
  | .ok _ =>
      let out := orchestratorRun declP analP linkP postP fileCount initialReport initialMetrics
      let finalStatus :=
        if out.report.issues.isEmpty then AnalysisStatus.completed
        else AnalysisStatus.completedWithIssues
      { out with report := { out.report with status := finalStatus } }

/-! ## Declaration phase internals (for the partial-failure claim) -/

/-- What a single file's declaration work would do: succeed with a list
of created node ids, or raise (e.g. a `SyntaxError`). -/
inductive FileOutcome where
  | ok (nodes : List String)
  | raises (msg : String)
  deriving Repr, DecidableEq

structure FileSpec where
  path : String
  outcome : FileOutcome
  deriving Repr, DecidableEq

/-- The result dict of `AnalysisOrchestrator._process_file_declarations`:
its whole body sits in a `try/except Exception`, so a raised exception is
converted into a `success=False` dict and never propagates. -/
structure DeclFileResult where
  success : Bool
  nodes : Option (List String)
  errorMsg : Option String
  deriving Repr, DecidableEq

def process_file_declarations (f : FileSpec) : DeclFileResult :=
  match f.outcome with
  | .ok nodes => { success := true, nodes := some nodes, errorMsg := none }
  | .raises msg => { success := false, nodes := none, errorMsg := some msg }

/-- An item of `asyncio.gather(*tasks, return_exceptions=True)`: the
value a task returned, or the exception it raised. -/
inductive GatherItem where
  | value (r : DeclFileResult)
  | exn (msg : String)
  deriving Repr, DecidableEq

/-- Gathering one batch: since `_process_file_declarations` catches every
exception itself, every item is a `.value`. -/
def gatherDeclarations (batch : List FileSpec) : List (FileSpec × GatherItem) :=
  batch.map (fun f => (f, GatherItem.value (process_file_declarations f)))

/-- Result handling in `_run_declaration_phase` (lines 283-292): only an
item that *is* an exception object is attributed to its file and counted
in `files_failed`; any returned dict — including the `success=False`
ones — takes the `else` branch, which just adds
`len(result.get('nodes', []))` to `nodes_created`. -/
def handleBatchResults (rm : AnalysisReport × AnalysisMetrics)
    (items : List (FileSpec × GatherItem)) : AnalysisReport × AnalysisMetrics :=
  items.foldl
    (fun (rm : AnalysisReport × AnalysisMetrics) fi =>
      match fi.2 with
      | .exn msg =>
          (rm.1.add_error ("Declaration phase failed for " ++ fi.1.path ++ ": " ++ msg)
              (some fi.1.path),
            { rm.2 with filesFailed := rm.2.filesFailed + 1 })
      | .value res =>
          (rm.1, { rm.2 with nodesCreated := rm.2.nodesCreated + (res.nodes.getD []).length }))
    rm

/-- `files[i:i + batch_size]` chunking of the declaration phase's file
list. -/
def chunksOf (n : Nat) : List FileSpec → List (List FileSpec)
  | [] => []
  | x :: xs => ((x :: xs).take n) :: chunksOf n (xs.drop (n - 1))
termination_by l => l.length
decreasing_by
  simp only [List.length_drop, List.length_cons]
  omega

/-- `AnalysisOrchestrator._run_declaration_phase` (lines 259-292): the
first statement calls the nonexistent `report.add_info`, so the phase
raises `AttributeError` before any batch is processed; the batch
pipeline below that line is unreachable. -/
def run_declaration_phase (batchSize : Nat) (files : List FileSpec) : PhaseFun :=
  fun report metrics =>
    match report_add_info report "Starting declaration phase" with
    | (r, some e) => (r, metrics, some e)
    | (r, none) =>
        let rm := (chunksOf batchSize files).foldl
          (fun rm batch => handleBatchResults rm (gatherDeclarations batch))
          (r, metrics)
        (rm.1, rm.2, none)

/-- `_run_analysis_phase` (line 330), `_run_linking_phase` (line 377) and
`_run_post_processing` (line 387) likewise each open with a
`report.add_info` call, so each would raise `AttributeError` on entry. -/
def phase_entry_add_info (message : String) : PhaseFun :=
  fun report metrics =>
    match report_add_info report message with
    | (r, oe) => (r, metrics, oe)

/-- A declaration batch of five files where the third raises a
`SyntaxError` during its declaration processing. -/
def fiveFileDeclBatch : List FileSpec :=
  [⟨"f1.py", .ok ["n1"]⟩, ⟨"f2.py", .ok ["n2"]⟩,
   ⟨"f3.py", .raises "SyntaxError: invalid syntax"⟩,
   ⟨"f4.py", .ok ["n4"]⟩, ⟨"f5.py", .ok ["n5"]⟩]

/-! # Lemmas and claim theorems -/

namespace PyDict

theorem get?_upd_self {β : Type} (d : List (String × β)) (k : String) (v : β) :
    get? (upd d k v) k = some v := by
  induction d with
  | nil => simp [upd, get?]
  | cons p rest ih =>
      by_cases h : p.1 = k
      · simp [upd, h, get?]
      · simp [upd, h, get?, ih]

theorem get?_upd_ne {β : Type} (d : List (String × β)) (k k' : String) (v : β)
    (h : k' ≠ k) : get? (upd d k v) k' = get? d k' := by
  have hkk : k ≠ k' := fun h' => h h'.symm
  induction d with
  | nil => simp [upd, get?, hkk]
  | cons p rest ih =>
      by_cases hp : p.1 = k
      · subst hp
        simp [upd, get?, hkk]
      · by_cases hk : p.1 = k'
        · simp [upd, hp, get?, hk, h]
        · simp [upd, hp, get?, hk, ih]

theorem get?_del_self {β : Type} (d : List (String × β)) (k : String) :
    get? (del d k) k = none := by
  induction d with
  | nil => simp [del, get?]
  | cons p rest ih =>
      by_cases h : p.1 = k
      · simpa [del, h] using ih
      · simpa [del, h, get?] using ih

end PyDict

theorem splitDotChars_ne_nil (cs acc : List Char) : splitDotChars cs acc ≠ [] := by
  induction cs generalizing acc with
  | nil => simp [splitDotChars]
  | cons c cs ih =>
      by_cases h : c = '.'
      · simp [splitDotChars, h]
      · simpa [splitDotChars, h] using ih (c :: acc)

theorem splitDot_ne_nil (s : String) : splitDot s ≠ [] :=
  splitDotChars_ne_nil s.data []

theorem splitDotChars_append (l₁ l₂ acc : List Char) :
    splitDotChars (l₁ ++ '.' :: l₂) acc =
      splitDotChars l₁ acc ++ splitDotChars l₂ [] := by
  induction l₁ generalizing acc with
  | nil => simp [splitDotChars]
  | cons c cs ih =>
      by_cases h : c = '.'
      · simp only [List.cons_append, splitDotChars, if_pos h, ih, List.append_eq]
      · simpa [splitDotChars, h] using ih (c :: acc)

/-- Splitting distributes over a dot-separated concatenation. -/
theorem splitDot_append (a b : String) :
    splitDot (a ++ "." ++ b) = splitDot a ++ splitDot b := by
  have hdata : (a ++ "." ++ b).data = a.data ++ '.' :: b.data := by
    simp [String.data_append]
  simp only [splitDot, hdata]
  exact splitDotChars_append a.data b.data []

theorem joinDot_cons_of_ne_nil (s : String) (l : List String) (h : l ≠ []) :
    joinDot (s :: l) = s ++ "." ++ joinDot l := by
  cases l with
  | nil => exact absurd rfl h
  | cons t r =>
      apply String.ext
      simp [joinDot, joinDotAux, String.data_append]

theorem joinDot_splitDotChars (cs acc : List Char) :
    joinDot (splitDotChars cs acc) = String.mk (acc.reverse ++ cs) := by
  induction cs generalizing acc with
  | nil =>
      apply String.ext
      simp [splitDotChars, joinDot, joinDotAux, String.data_append]
  | cons c cs ih =>
      by_cases h : c = '.'
      · rw [splitDotChars, if_pos h,
          joinDot_cons_of_ne_nil _ _ (splitDotChars_ne_nil cs []), ih []]
        subst h
        apply String.ext
        simp [String.data_append]
      · rw [splitDotChars, if_neg h, ih (c :: acc)]
        simp

/-- Joining the split recovers the original string. -/
theorem joinDot_splitDot (s : String) : joinDot (splitDot s) = s := by
  have h := joinDot_splitDotChars s.data []
  simpa [splitDot] using h

theorem splitDot_length_pos (s : String) : 0 < (splitDot s).length :=
  List.length_pos.mpr (splitDot_ne_nil s)

/-! ## Symbol-table import-map round trip (C9) -/

/-- C9: for every file id `F` and every prior symbol-table state, after
`add_import(F, "np", "numpy")` the call `resolve_import_qname(F, "np")`
returns `"numpy"`, and after a subsequent `clear_file_imports(F)` the
same call returns none. -/
theorem add_import_resolve_clear_roundtrip (st : SymbolTable) (F : String) :
    (st.add_import F "np" "numpy").resolve_import_qname F "np" = some "numpy" ∧
    ((st.add_import F "np" "numpy").clear_file_imports F).resolve_import_qname F "np" = none := by
  constructor
  · simp [SymbolTable.add_import, SymbolTable.resolve_import_qname,
      PyDict.get?_upd_self]
  · simp [SymbolTable.add_import, SymbolTable.clear_file_imports,
      SymbolTable.resolve_import_qname, PyDict.get?_del_self]

/-! ## Package-id placeholders poison locality (C10) -/

/-- C10: for a qname `q` with no registered id,
`get_or_create_package_id q` registers the returned placeholder under
`q`, so a second call returns the same id and leaves the table
unchanged; afterwards `is_local_module q` — and `is_local_module` of
every dotted extension `q ++ "." ++ x` — returns true, even though `q`
may name an external package. -/
theorem get_or_create_package_id_registers (st : SymbolTable) (q x : String)
    (h : PyDict.get? st.qnameToId q = none) :
    PyDict.get? (st.get_or_create_package_id q).2.qnameToId q =
      some (st.get_or_create_package_id q).1 ∧
    (st.get_or_create_package_id q).2.get_or_create_package_id q =
      st.get_or_create_package_id q ∧
    (st.get_or_create_package_id q).2.is_local_module q = true ∧
    (st.get_or_create_package_id q).2.is_local_module (q ++ "." ++ x) = true := by
  have hreg : PyDict.get? (st.get_or_create_package_id q).2.qnameToId q =
      some (st.get_or_create_package_id q).1 := by
    simp [SymbolTable.get_or_create_package_id, h, PyDict.get?_upd_self]
  refine ⟨hreg, ?_, ?_, ?_⟩
  · simp [SymbolTable.get_or_create_package_id, h, PyDict.get?_upd_self]
  · simp [SymbolTable.is_local_module, PyDict.hasKey, hreg]
  · -- tier 2: the dotted prefix of `q ++ "." ++ x` at index
    -- `(splitDot q).length - 1` is `q` itself, which is now registered
    rw [SymbolTable.is_local_module]
    have hany : ((List.range (splitDot (q ++ "." ++ x)).length).any
        (fun i => PyDict.hasKey (st.get_or_create_package_id q).2.qnameToId
          (joinDot ((splitDot (q ++ "." ++ x)).take (i + 1))))) = true := by
      rw [List.any_eq_true]
      refine ⟨(splitDot q).length - 1, List.mem_range.mpr ?_, ?_⟩
      · rw [splitDot_append]
        have h1 := splitDot_length_pos q
        have h2 := splitDot_length_pos x
        simp only [List.length_append]
        omega
      · have hq := splitDot_length_pos q
        have htake : (splitDot (q ++ "." ++ x)).take ((splitDot q).length - 1 + 1)
            = splitDot q := by
          rw [splitDot_append, Nat.sub_add_cancel hq, List.take_left]
        rw [htake, joinDot_splitDot]
        simp [PyDict.hasKey, hreg]
    by_cases hk : PyDict.hasKey (st.get_or_create_package_id q).2.qnameToId
        (q ++ "." ++ x)
    · simp [hk]
    · simp [hk, hany]

/-- Witness for the package-id claim: on the empty table and qname
`"numpy"` with extension `"linalg"`, the hypothesis holds and the
registered placeholder makes both `"numpy"` and `"numpy.linalg"`
local. -/
theorem get_or_create_package_id_registers_witness :
    PyDict.get? SymbolTable.empty.qnameToId "numpy" = none ∧
    (SymbolTable.empty.get_or_create_package_id "numpy").2.is_local_module "numpy" = true ∧
    (SymbolTable.empty.get_or_create_package_id "numpy").2.is_local_module
      ("numpy" ++ "." ++ "linalg") = true := by
  have h := get_or_create_package_id_registers SymbolTable.empty "numpy" "linalg" rfl
  exact ⟨rfl, h.2.2.1, h.2.2.2⟩

/-! ## Relative-import base computation (C7) -/

/-- C7: for a file whose qname in the Symbol Table is `pkg.sub.mod`,
processing `from .. import x` computes the relative-import base `pkg`
and registers alias `x` to qname `pkg.x` in that file's import map. -/
theorem relative_import_base_and_registration (st : DepState) (pos : NodePosition)
    (h : get_file_qname_from_context st = "pkg.sub.mod") :
    get_relative_import_base st 2 = "pkg" ∧
    (process_import_from st none [⟨"x", none⟩] 2 pos).symtab.resolve_import_qname
      st.fileId "x" = some "pkg.x" := by
  have hbase : get_relative_import_base st 2 = "pkg" := by
    rw [get_relative_import_base, h]
    rfl
  refine ⟨hbase, ?_⟩
  have hbase' : get_relative_import_base
      { st with processedImports :=
          st.processedImports ++ [PyStmt.importFrom none [⟨"x", none⟩] 2 pos] } 2
      = "pkg" := hbase
  rw [process_import_from]
  simp only [hbase', List.foldl_cons, List.foldl_nil]
  rw [if_neg (by decide)]
  simp [SymbolTable.resolve_import_qname, SymbolTable.add_import,
    PyAlias.boundName, PyDict.get?_upd_self]

/-- Witness for the relative-import claim: a state whose symbol table
registers `pkg.sub.mod` as the id of the current file. -/
theorem relative_import_base_and_registration_witness :
    get_file_qname_from_context
      (⟨⟨[("pkg.sub.mod", "file_1")], [], []⟩, "file_1", none, [], [], []⟩ : DepState)
      = "pkg.sub.mod" ∧
    get_relative_import_base
      (⟨⟨[("pkg.sub.mod", "file_1")], [], []⟩, "file_1", none, [], [], []⟩ : DepState) 2
      = "pkg" ∧
    (process_import_from
        (⟨⟨[("pkg.sub.mod", "file_1")], [], []⟩, "file_1", none, [], [], []⟩ : DepState)
        none [⟨"x", none⟩] 2 ⟨1, 0, 1, 20⟩).symtab.resolve_import_qname
      "file_1" "x" = some "pkg.x" := by
  have h := relative_import_base_and_registration
    (⟨⟨[("pkg.sub.mod", "file_1")], [], []⟩, "file_1", none, [], [], []⟩ : DepState)
    ⟨1, 0, 1, 20⟩ rfl
  exact ⟨rfl, h.1, h.2⟩

/-! ## Attribute-chain reconstruction (C8) -/

/-- C8: attribute-chain reconstruction on the AST of `a.b.c` yields
exactly `["a", "b", "c"]`; on the AST of `f().b`, whose chain is rooted
in a call, it yields the empty (unresolvable) result. -/
theorem reconstruct_attribute_chain_examples :
    reconstruct_attribute_chain
      (.attr (.attr (.name "a" true ⟨1, 0, 1, 5⟩) "b" true ⟨1, 0, 1, 5⟩)
        "c" true ⟨1, 0, 1, 5⟩) = ["a", "b", "c"] ∧
    reconstruct_attribute_chain
      (.attr (.call (.name "f" true ⟨1, 0, 1, 5⟩) []) "b" true ⟨1, 0, 1, 5⟩) = [] :=
  ⟨rfl, rfl⟩

/-! ## The AST cache never caches (C5) -/

/-- C5 (code evidence): `ASTCache.set` and `ASTCache.get` are `pass`
stubs, so storing a tree under a path and reading it back yields `None`
rather than the stored tree, and the detail pass — contrary to the claim
— always falls through to re-reading and re-parsing the file, returning
no tree at all when that re-read fails. -/
theorem ast_cache_set_then_get_is_none (c : ASTCache) (p : String) (t : List PyStmt) :
    ASTCache.get (ASTCache.set c p t) p = none ∧
    (run_detail_pass_fetch (ASTCache.set c p t) p (.parsed t)).1 = some t ∧
    (run_detail_pass_fetch (ASTCache.set c p t) p (.failed "OSError")).1 = none :=
  ⟨rfl, rfl, rfl⟩

/-! ## The declaration pass records nothing (C2) -/

/-- C2 (code evidence): on the module
`class C:\n def m(self): pass\ndef f(): pass` the declaration pass
returns no descriptors at all — the `DeclarationVisitor`'s handlers are
`pass` stubs, so `declared_functions` and `declared_classes` stay empty
and the span-containment reclassification in `run_declaration_pass`
iterates over nothing — instead of the two function descriptors (with
qnames `<module>.C.m` and `<module>.f`) the claim requires. -/
theorem declaration_pass_stub_returns_no_descriptors :
    (run_declaration_pass ASTCache.empty "/root" "/root/module.py"
      (.parsed
        [.classDef "C" [.functionDef "m" [.passStmt] ⟨2, 1, 2, 22⟩] ⟨1, 0, 2, 22⟩,
         .functionDef "f" [.passStmt] ⟨3, 0, 3, 19⟩])).1 = [] :=
  rfl

/-! ## Shape lemmas for the dependency visitor's leaf operations -/

theorem foldl_import_shape (l : List PyAlias) :
    ∀ s : DepState, ∃ tab,
      l.foldl
        (fun s al => { s with symtab := s.symtab.add_import s.fileId al.boundName al.name }) s
      = { s with symtab := tab } := by
  induction l with
  | nil => exact fun s => ⟨s.symtab, rfl⟩
  | cons a r ih =>
      intro s
      obtain ⟨tab, h⟩ :=
        ih { s with symtab := s.symtab.add_import s.fileId a.boundName a.name }
      exact ⟨tab, by rw [List.foldl_cons]; exact h⟩

theorem foldl_importFrom_shape (baseModule : String) (l : List PyAlias) :
    ∀ s : DepState, ∃ tab,
      l.foldl
        (fun s al =>
          if al.name = "*" then s
          else
            let fullQname := if baseModule = "" then al.name else baseModule ++ "." ++ al.name
            { s with symtab := s.symtab.add_import s.fileId al.boundName fullQname }) s
      = { s with symtab := tab } := by
  induction l with
  | nil => exact fun s => ⟨s.symtab, rfl⟩
  | cons a r ih =>
      intro s
      by_cases ha : a.name = "*"
      · obtain ⟨tab, h⟩ := ih s
        refine ⟨tab, ?_⟩
        rw [List.foldl_cons, if_pos ha]
        exact h
      · obtain ⟨tab, h⟩ :=
          ih { s with symtab := (s.symtab.add_import s.fileId a.boundName (if baseModule = "" then a.name else baseModule ++ "." ++ a.name)) }
        refine ⟨tab, ?_⟩
        rw [List.foldl_cons, if_neg ha]
        exact h

/-- `process_import` only touches the symbol table and the list of
processed imports. -/
theorem process_import_shape (st : DepState) (names : List PyAlias) (pos : NodePosition) :
    ∃ tab, process_import st names pos =
      { st with symtab := tab, processedImports := st.processedImports ++ [PyStmt.importStmt names pos] } := by
  obtain ⟨tab, h⟩ := foldl_import_shape names
    { st with processedImports := st.processedImports ++ [PyStmt.importStmt names pos] }
  exact ⟨tab, h⟩

/-- `process_import_from` only touches the symbol table and the list
of processed imports. -/
theorem process_import_from_shape (st : DepState) (module : Option String)
    (names : List PyAlias) (level : Nat) (pos : NodePosition) :
    ∃ tab, process_import_from st module names level pos =
      { st with symtab := tab, processedImports := st.processedImports ++ [PyStmt.importFrom module names level pos] } := by
  obtain ⟨tab, h⟩ := foldl_importFrom_shape
    (match module with
      | none => get_relative_import_base
          { st with processedImports := st.processedImports ++ [PyStmt.importFrom module names level pos] } level
      | some m => m)
    names
    { st with processedImports := st.processedImports ++ [PyStmt.importFrom module names level pos] }
  exact ⟨tab, h⟩

/-- `detect_name_usage` only touches the result list. -/
theorem detect_name_usage_shape (st : DepState) (id : String) (isLoad : Bool)
    (pos : NodePosition) :
    ∃ res, detect_name_usage st id isLoad pos = { st with results := res } := by
  unfold detect_name_usage
  split
  · exact ⟨st.results, rfl⟩
  · split
    · exact ⟨st.results, rfl⟩
    · dsimp only
      split
      · exact ⟨_, rfl⟩
      · exact ⟨st.results, rfl⟩

/-! ## The visitor restores consumer and class stack (helper for C1) -/

mutual

theorem visitStmt_stable (st : DepState) (s : PyStmt) :
    (visitStmt st s).currentConsumerId = st.currentConsumerId ∧
    (visitStmt st s).classStack = st.classStack := by
  cases s with
  | functionDef nm body p =>
      simp only [visitStmt]
      split
      · exact ⟨rfl, (visitStmtList_stable _ body).2⟩
      · exact ⟨rfl, rfl⟩
  | classDef nm body p =>
      simp only [visitStmt]
      split
      · refine ⟨rfl, ?_⟩
        rw [(visitStmtList_stable _ body).2]
        simp [pushClass]
      · refine ⟨(visitStmtList_stable _ body).1, ?_⟩
        rw [(visitStmtList_stable _ body).2]
        simp [pushClass]
  | importStmt names pos =>
      obtain ⟨tab, h⟩ := process_import_shape st names pos
      simp [visitStmt, h]
  | importFrom m names l pos =>
      obtain ⟨tab, h⟩ := process_import_from_shape st m names l pos
      simp [visitStmt, h]
  | exprStmt e =>
      simp only [visitStmt]
      exact visitExpr_stable st e
  | assign targets value =>
      simp only [visitStmt]
      obtain ⟨h1, h2⟩ := visitExprList_stable st targets
      obtain ⟨h3, h4⟩ := visitExpr_stable (visitExprList st targets) value
      exact ⟨h3.trans h1, h4.trans h2⟩
  | passStmt => exact ⟨rfl, rfl⟩

theorem visitStmtList_stable (st : DepState) (l : List PyStmt) :
    (visitStmtList st l).currentConsumerId = st.currentConsumerId ∧
    (visitStmtList st l).classStack = st.classStack := by
  cases l with
  | nil => exact ⟨rfl, rfl⟩
  | cons s rest =>
      simp only [visitStmtList]
      obtain ⟨h1, h2⟩ := visitStmt_stable st s
      obtain ⟨h3, h4⟩ := visitStmtList_stable (visitStmt st s) rest
      exact ⟨h3.trans h1, h4.trans h2⟩

theorem visitExpr_stable (st : DepState) (e : PyExpr) :
    (visitExpr st e).currentConsumerId = st.currentConsumerId ∧
    (visitExpr st e).classStack = st.classStack := by
  cases e with
  | name id isLoad pos =>
      obtain ⟨res, h⟩ := detect_name_usage_shape st id isLoad pos
      simp [visitExpr, h]
  | attr v a isLoad pos =>
      simp only [visitExpr]
      split
      · exact ⟨rfl, rfl⟩
      · split
        · exact ⟨rfl, rfl⟩
        · split
          · exact ⟨rfl, rfl⟩
          · split
            · obtain ⟨h1, h2⟩ := visitExpr_stable
                (create_usage_edge st _ _ _ _ pos) v
              exact ⟨h1, h2⟩
            · exact visitExpr_stable st v
  | call f args =>
      simp only [visitExpr]
      obtain ⟨h1, h2⟩ := visitExpr_stable st f
      obtain ⟨h3, h4⟩ := visitExprList_stable (visitExpr st f) args
      exact ⟨h3.trans h1, h4.trans h2⟩
  | strConst => exact ⟨rfl, rfl⟩

theorem visitExprList_stable (st : DepState) (l : List PyExpr) :
    (visitExprList st l).currentConsumerId = st.currentConsumerId ∧
    (visitExprList st l).classStack = st.classStack := by
  cases l with
  | nil => exact ⟨rfl, rfl⟩
  | cons e rest =>
      simp only [visitExprList]
      obtain ⟨h1, h2⟩ := visitExpr_stable st e
      obtain ⟨h3, h4⟩ := visitExprList_stable (visitExpr st e) rest
      exact ⟨h3.trans h1, h4.trans h2⟩

end

/-! ## Usages with no consumer produce no edge (helper for C1) -/

mutual

theorem visitExpr_results_of_none (st : DepState) (e : PyExpr)
    (h : st.currentConsumerId = none) : (visitExpr st e).results = st.results := by
  cases e with
  | name id isLoad pos => simp [visitExpr, detect_name_usage, h]
  | attr v a isLoad pos => simp [visitExpr, h]
  | call f args =>
      simp only [visitExpr]
      have h1 := visitExpr_results_of_none st f h
      have hc : (visitExpr st f).currentConsumerId = none :=
        (visitExpr_stable st f).1.trans h
      have h2 := visitExprList_results_of_none (visitExpr st f) args hc
      rw [h2, h1]
  | strConst => rfl

theorem visitExprList_results_of_none (st : DepState) (l : List PyExpr)
    (h : st.currentConsumerId = none) : (visitExprList st l).results = st.results := by
  cases l with
  | nil => rfl
  | cons e rest =>
      simp only [visitExprList]
      have h1 := visitExpr_results_of_none st e h
      have hc : (visitExpr st e).currentConsumerId = none :=
        (visitExpr_stable st e).1.trans h
      have h2 := visitExprList_results_of_none (visitExpr st e) rest hc
      rw [h2, h1]

end

/-! ## Consumer context management (C1) -/

/-- C1 (amended): entering a scope saves and restores the consumer and
the class stack around the body visit, and a usage detected with no
consumer produces no edge; but the two scope kinds differ when their
qname has no id — a class definition's body is still visited (with the
class pushed and later popped, the consumer left as it was), while a
function definition whose qname is unresolved is skipped entirely:
its body is not traversed, so imports and nested scopes inside it are
not processed. -/
theorem dependency_context_unresolved_scopes :
    (∀ (st : DepState) (nm : String) (body : List PyStmt) (p : NodePosition),
      optTruthy (PyDict.get? st.symtab.qnameToId (function_qname st nm)) = false →
      visitStmt st (.functionDef nm body p) = st) ∧
    (∀ (st : DepState) (nm : String) (body : List PyStmt) (p : NodePosition),
      optTruthy (PyDict.get? (pushClass st nm).symtab.qnameToId (class_qname (pushClass st nm))) = false →
      visitStmt st (.classDef nm body p) =
        { visitStmtList (pushClass st nm) body with classStack := (visitStmtList (pushClass st nm) body).classStack.dropLast }) ∧
    (∀ (st : DepState) (s : PyStmt),
      (visitStmt st s).currentConsumerId = st.currentConsumerId ∧
      (visitStmt st s).classStack = st.classStack) ∧
    (∀ (st : DepState) (e : PyExpr), st.currentConsumerId = none →
      (visitExpr st e).results = st.results) := by
  refine ⟨?_, ?_, visitStmt_stable, visitExpr_results_of_none⟩
  · intro st nm body p h
    simp [visitStmt, h]
  · intro st nm body p h
    simp [visitStmt, h]

/-- C1 counterexample: a function definition whose qname (`mod.g`) has
no id in the symbol table is skipped whole — the `numpy` import inside
its body is neither recorded among the processed imports nor registered
in the file's import map, and the state is returned untouched —
refuting the claim that the dependency pass still traverses such a
definition's body. -/
theorem unresolved_function_body_not_traversed_cex :
    visitStmt (⟨⟨[("mod", "file_1")], [], []⟩, "file_1", none, [], [], []⟩ : DepState)
        (.functionDef "g" [.importStmt [⟨"numpy", none⟩] ⟨2, 4, 2, 16⟩] ⟨1, 0, 2, 16⟩) =
      (⟨⟨[("mod", "file_1")], [], []⟩, "file_1", none, [], [], []⟩ : DepState) ∧
    (visitStmt (⟨⟨[("mod", "file_1")], [], []⟩, "file_1", none, [], [], []⟩ : DepState)
        (.functionDef "g" [.importStmt [⟨"numpy", none⟩] ⟨2, 4, 2, 16⟩] ⟨1, 0, 2, 16⟩)).symtab.resolve_import_qname
      "file_1" "numpy" = none :=
  ⟨rfl, rfl⟩

/-- Witness for the amended consumer-context claim: an unresolved
top-level function is skipped, and a bare-name usage with no active
consumer adds no edge. -/
theorem dependency_context_unresolved_scopes_witness :
    visitStmt (⟨⟨[], [], []⟩, "file_9", none, [], [], []⟩ : DepState)
        (.functionDef "h" [] ⟨1, 0, 1, 5⟩) =
      (⟨⟨[], [], []⟩, "file_9", none, [], [], []⟩ : DepState) ∧
    (visitExpr (⟨⟨[], [], []⟩, "file_9", none, [], [], []⟩ : DepState)
        (.name "np" true ⟨1, 0, 1, 2⟩)).results = [] := by
  have h := dependency_context_unresolved_scopes
  exact ⟨h.1 _ "h" [] _ rfl, h.2.2.2 _ (.name "np" true ⟨1, 0, 1, 2⟩) rfl⟩

/-! ## Package reconciliation crashes on every edge (C6) -/

/-- C6 (code evidence): the package-dedup scenario never happens.  Every
`UsesImportEdge` the dependency pass produces lacks a `target_qname`
attribute (the model silently dropped the keyword), so
`_process_dependency_edges` raises `AttributeError` on its first edge —
for any scanner state — and persists neither a Package node nor an
edge; only an empty edge list passes through.  Two files importing
`numpy` therefore crash the scan instead of yielding one shared Package
node with two edges. -/
theorem package_reconciliation_always_raises (st : ScanState)
    (e : UsesImportEdge) (es : List UsesImportEdge) :
    process_dependency_edges st (e :: es) =
      .error "AttributeError: UsesImportEdge object has no attribute target_qname" ∧
    process_dependency_edges st [] = .ok st :=
  ⟨rfl, rfl⟩

/-! ## Orchestration failure semantics (C3) -/

/-- C3 (code evidence): no exception can ever escape one of the
orchestrator's phases, because every `analyze_project` call aborts while
constructing the orchestrator — `ModuleNotFoundError` from its imports
of the nonexistent `symbol_registry`, `ast_cache` and `visitor_pipeline`
modules — inside the caller's `try`.  Whatever the four phase bodies
would do, the returned status is `failed`, no phase is entered, a single
`Analysis failed` error issue is recorded, and `success` is false. -/
theorem analysis_fails_before_any_phase (p1 p2 p3 p4 : PhaseFun) (n : Nat) :
    (analyze_project p1 p2 p3 p4 n).report.status = .failed ∧
    (analyze_project p1 p2 p3 p4 n).invoked = [] ∧
    (analyze_project p1 p2 p3 p4 n).success = false ∧
    (analyze_project p1 p2 p3 p4 n).report.issues =
      [⟨"error", "ParsingError",
        "Analysis failed: ModuleNotFoundError: No module named symbol_registry",
        none⟩] :=
  ⟨rfl, rfl, rfl, rfl⟩

/-! ## Declaration-batch partial failure (C4) -/

/-- C4 (code evidence): on the five-file declaration batch whose third
file raises a `SyntaxError`, the run never reaches the declaration
phase at all — orchestrator construction raises `ModuleNotFoundError`
first — so the status is `failed` (not `completed_with_issues`),
`files_failed` is 0 (never 1), no issue is attributed to `f3.py`, no
node is created, and no phase is entered.  The batch pipeline is dead
code, and even it would not satisfy the claim: its first statement
calls the nonexistent `report.add_info`, and deeper down
`_process_file_declarations` converts the file's exception into a
`success=False` dict that the handler's `isinstance(result, Exception)`
branch ignores, leaving `files_failed` at 0 with no issue for
`f3.py`. -/
theorem declaration_batch_partial_failure_bug :
    (analyze_project (run_declaration_phase 10 fiveFileDeclBatch)
      (phase_entry_add_info "Starting analysis phase")
      (phase_entry_add_info "Starting linking phase")
      (phase_entry_add_info "Starting post-processing") 5).metrics.filesFailed = 0 ∧
    (analyze_project (run_declaration_phase 10 fiveFileDeclBatch)
      (phase_entry_add_info "Starting analysis phase")
      (phase_entry_add_info "Starting linking phase")
      (phase_entry_add_info "Starting post-processing") 5).metrics.filesFailed ≠ 1 ∧
    (analyze_project (run_declaration_phase 10 fiveFileDeclBatch)
      (phase_entry_add_info "Starting analysis phase")
      (phase_entry_add_info "Starting linking phase")
      (phase_entry_add_info "Starting post-processing") 5).report.issues.filter
      (fun i => i.filePath == some "f3.py") = [] ∧
    (analyze_project (run_declaration_phase 10 fiveFileDeclBatch)
      (phase_entry_add_info "Starting analysis phase")
      (phase_entry_add_info "Starting linking phase")
      (phase_entry_add_info "Starting post-processing") 5).metrics.nodesCreated = 0 ∧
    (analyze_project (run_declaration_phase 10 fiveFileDeclBatch)
      (phase_entry_add_info "Starting analysis phase")
      (phase_entry_add_info "Starting linking phase")
      (phase_entry_add_info "Starting post-processing") 5).report.status = .failed ∧
    (analyze_project (run_declaration_phase 10 fiveFileDeclBatch)
      (phase_entry_add_info "Starting analysis phase")
      (phase_entry_add_info "Starting linking phase")
      (phase_entry_add_info "Starting post-processing") 5).invoked = [] ∧
    (handleBatchResults (initialReport, { initialMetrics with filesProcessed := 5 })
      (gatherDeclarations fiveFileDeclBatch)).2.filesFailed = 0 ∧
    (handleBatchResults (initialReport, { initialMetrics with filesProcessed := 5 })
      (gatherDeclarations fiveFileDeclBatch)).1.issues = [] := by
  refine ⟨rfl, ?_, rfl, rfl, rfl, rfl, rfl, rfl⟩
  decide

end IDE
